import Mathlib

/-!
Shallow embedding of lib/taco-team-build/taco-team-build.js from the
vsts-cordova-tasks repository, with proofs about the claims of its
specification.  JavaScript strings are Lean strings; the file system is
a base existence predicate together with the list of directories created
so far; external effects (child process execution, cordova raw calls)
are recorded as events; promises are modelled by an explicit outcome
(resolved, rejected, pending, crashed) paired with the event list.
-/

namespace TacoTeamBuild

/-! ## Semantic versions

A model of the npm semver package as used by the source through
semver.lt: parse "major.minor.patch" with an optional prerelease part
after the first dash (build metadata after a plus sign is ignored), and
compare with the standard semver precedence rules. -/

/-- Split a character list at every occurrence of the given character. -/
def splitOnChar (c : Char) : List Char → List (List Char)
  | [] => [[]]
  | x :: xs =>
    let r := splitOnChar c xs
    if x == c then [] :: r
    else
      match r with
      | [] => [[x]]
      | g :: gs => (x :: g) :: gs

/-- Keep the characters before the first plus sign (semver build metadata). -/
def takeUntilPlus : List Char → List Char
  | [] => []
  | x :: xs => if x == '+' then [] else x :: takeUntilPlus xs

/-- Split at the first dash: the version core and the optional prerelease part. -/
def splitAtDash : List Char → List Char × Option (List Char)
  | [] => ([], none)
  | x :: xs =>
    if x == '-' then ([], some xs)
    else
      let r := splitAtDash xs
      (x :: r.1, r.2)

/-- Parse a nonempty all-digit character list as a natural number. -/
def charsToNat? (l : List Char) : Option Nat :=
  if l.isEmpty then none
  else l.foldl (fun acc c =>
    match acc with
    | some n => if c.isDigit then some (n * 10 + (c.toNat - 48)) else none
    | none => none) (some 0)

/-- A parsed semantic version: numeric core plus prerelease identifiers. -/
structure SemVer where
  major : Nat
  minor : Nat
  patch : Nat
  pre : List String
  deriving Repr, DecidableEq

/-- Parse a semantic version string such as "3.7.0" or "4.0.0-dev". -/
def parseSemVer (s : String) : Option SemVer :=
  let cs := takeUntilPlus s.toList
  let core := splitAtDash cs
  match splitOnChar '.' core.1 with
  | [ma, mi, pa] =>
    match charsToNat? ma, charsToNat? mi, charsToNat? pa with
    | some a, some b, some c =>
      some { major := a, minor := b, patch := c,
             pre := match core.2 with
                    | none => []
                    | some p => (splitOnChar '.' p).map (fun l => String.mk l) }
    | _, _, _ => none
  | _ => none

/-- Precedence of single prerelease identifiers: numeric identifiers compare
as numbers and come before alphanumeric ones, which compare lexically. -/
def preIdLt (a b : String) : Bool :=
  match charsToNat? a.toList, charsToNat? b.toList with
  | some x, some y => x < y
  | some _, none => true
  | none, some _ => false
  | none, none => decide (a < b)

/-- Precedence of prerelease identifier lists, field by field; a strict
initial segment comes first. -/
def preListLt : List String → List String → Bool
  | [], [] => false
  | [], _ :: _ => true
  | _ :: _, [] => false
  | a :: as, b :: bs => if a == b then preListLt as bs else preIdLt a b

/-- Strict order on parsed semantic versions: numeric core first, then a
prerelease version comes before the corresponding release. -/
def semVerLt (x y : SemVer) : Bool :=
  if x.major != y.major then x.major < y.major
  else if x.minor != y.minor then x.minor < y.minor
  else if x.patch != y.patch then x.patch < y.patch
  else
    match x.pre, y.pre with
    | [], [] => false
    | _ :: _, [] => true
    | [], _ :: _ => false
    | a, b => preListLt a b

/-- Model of semver.lt on version strings (false on unparsable input,
which no call site of the source exercises). -/
def semverLt (a b : String) : Bool :=
  match parseSemVer a, parseSemVer b with
  | some x, some y => semVerLt x y
  | _, _ => false

/-! ## Paths and small JavaScript helpers -/

/-- Model of path.join for two segments. -/
def pathJoin (a b : String) : String := a ++ "/" ++ b

/-- Model of path.resolve against the current working directory for
POSIX-style paths: an absolute path stands, a relative one is joined to
the working directory. -/
def pathResolve (cwd p : String) : String :=
  match p.toList with
  | '/' :: _ => p
  | _ => cwd ++ "/" ++ p

/-- Join character-list path components with slashes. -/
def joinWithSlash : List (List Char) → List Char
  | [] => []
  | [g] => g
  | g :: gs => g ++ '/' :: joinWithSlash gs

/-- Model of path.dirname: everything before the last slash. -/
def dirname (p : String) : String :=
  let comps := splitOnChar '/' p.toList
  if comps.length ≤ 1 then "." else String.mk (joinWithSlash comps.dropLast)

/-- Model of path.basename with an extension argument: the last path
component, with the extension removed when the component is longer than
the extension and ends with it. -/
def basenameExt (p ext : String) : String :=
  let b := (splitOnChar '/' p.toList).getLastD []
  let e := ext.toList
  if b.length > e.length && b.drop (b.length - e.length) == e then
    String.mk (b.take (b.length - e.length))
  else String.mk b

/-- Model of the JavaScript regex replace of every whitespace character
by the empty string, as applied to the VERSION file contents. -/
def stripWs (s : String) : String :=
  String.mk (s.toList.filter (fun c => !c.isWhitespace))

/-- JavaScript String(boolean) conversion. -/
def jsStringOfBool (b : Bool) : String := if b then "true" else "false"

/-- JavaScript truthiness of a string: every nonempty string is truthy. -/
def jsTruthyString (s : String) : Bool := !s.isEmpty

/-! ## Constants of the source file -/

def DEFAULT_CORDOVA_VERSION : String := "5.1.1"

def SUPPORT_PLUGIN_ID : String := "cordova-plugin-vs-taco-support"

def CORDOVA_LIB : String := "cordova-lib"

def CORDOVA : String := "cordova"

/-! ## Data model -/

/-- The consistent argument bundle produced by getCallArgs: a platform
list and an options field that may be undefined (none). -/
structure CallArgs where
  platforms : List String
  options : Option (List String)
  deriving Repr, DecidableEq

/-- Events recording external effects: child process execution, cordova
plugin installation, cordova platform registration, cordova build calls. -/
inductive Ev
  | execCmd (cmd : String)
  | pluginAdd (id : String)
  | addPlatform (p : String)
  | buildPlatform (p : String) (ca : Option CallArgs)
  deriving Repr, DecidableEq

/-- The events that are child process executions. -/
def isExecEv : Ev → Bool
  | Ev.execCmd _ => true
  | _ => false

/-- The number of child process executions in an event list. -/
def countExec (evs : List Ev) : Nat := (evs.filter isExecEv).length

/-- The events that are cordova platform registrations. -/
def isAdd : Ev → Bool
  | Ev.addPlatform _ => true
  | _ => false

/-- The events that are cordova build calls. -/
def isBuild : Ev → Bool
  | Ev.buildPlatform _ _ => true
  | _ => false

/-- The file system: a base existence predicate plus the list of paths
created by mkdirSync so far. -/
structure Fs where
  base : String → Bool
  created : List String

/-- Model of fs.existsSync. -/
def Fs.existsSync (fs : Fs) (p : String) : Bool :=
  fs.base p || fs.created.contains p

/-- Model of fs.mkdirSync. -/
def Fs.mkdirSync (fs : Fs) (p : String) : Fs :=
  { fs with created := p :: fs.created }

/-- The module-level mutable state of the source file: cordovaCache,
defaultCordovaVersion, projectPath, cordovaVersion, loadedCordovaVersion
and cdv (the loaded module handle, represented by the path it was
required from), plus the working directory of the process. -/
structure GlobalState where
  cordovaCache : String
  defaultCordovaVersion : String
  projectPath : String
  cordovaVersion : Option String
  loadedCordovaVersion : Option String
  cdv : Option String
  cwd : String
  deriving Repr, DecidableEq

/-- The recognized fields of the options object accepted by configure. -/
structure ConfigureOptions where
  cordovaCache : Option String
  cordovaVersion : Option String
  projectPath : Option String
  deriving Repr, DecidableEq

/-- The outcome of a promise-returning operation: fulfilled, rejected,
never settled, or a synchronous crash inside a callback. -/
inductive Outcome
  | resolved
  | rejected (msg : String)
  | pending
  | crashed (msg : String)
  deriving Repr, DecidableEq

/-- The error message thrown by configure for a missing project path. -/
def configErrMsg (p : String) : String :=
  "Specified project path does not exist: \"" ++ p ++ "\""

/-! ## configure (source lines 34 to 41) -/

/-- Model of configure: apply each supplied option (resolving a supplied
project path against the working directory), then check synchronously
that the effective project path exists, throwing otherwise.  The model
returns Except with no event list because configure performs no
external effect and no asynchronous work. -/
def configure (fs : Fs) (st : GlobalState) (obj : ConfigureOptions) :
    Except String GlobalState :=
  let st := match obj.cordovaCache with
            | some c => { st with cordovaCache := c }
            | none => st
  let st := match obj.cordovaVersion with
            | some v => { st with cordovaVersion := some v }
            | none => st
  let st := match obj.projectPath with
            | some p => { st with projectPath := pathResolve st.cwd p }
            | none => st
  if fs.existsSync st.projectPath then Except.ok st
  else Except.error (configErrMsg st.projectPath)

/-! ## Version resolution (source lines 26 to 31 and 55 to 64) -/

/-- Model of the module initialization of defaultCordovaVersion: the
CORDOVA_DEFAULT_VERSION environment variable when set, else the built-in
default. -/
def defaultCordovaVersionOf (env : Option String) : String :=
  env.getD DEFAULT_CORDOVA_VERSION

/-- Model of the version resolution step of setupCordova: an already
set cordovaVersion wins, else the cordova-cli value of taco.json when
that file exists, else the defaultCordovaVersion global. -/
def resolveVersion (cordovaVersion tacoVersion : Option String)
    (defaultCordovaVersion : String) : String :=
  match cordovaVersion with
  | some v => v
  | none => tacoVersion.getD defaultCordovaVersion

/-! ## The install command (source lines 81 to 83) -/

/-- Model of the exec argument built by setupCordova on a cache miss.
In JavaScript the binary plus operator binds tighter than the
conditional operator, so the written expression groups as
(npm install plus the stringified boolean) as the condition, CORDOVA as
the then branch, and (CORDOVA_LIB plus the at sign plus the version) as
the else branch; the condition is a nonempty string, hence truthy. -/
def installCmdString (cordovaVersion : String) : String :=
  if jsTruthyString ("npm install " ++ jsStringOfBool (semverLt cordovaVersion "3.7.0"))
  then CORDOVA
  else CORDOVA_LIB ++ "@" ++ cordovaVersion

/-! ## getCordova (source lines 196 to 218) -/

/-- Model of getCordova: when no handle is loaded or the loaded version
differs from the resolved one, record the version as loaded, change the
working directory to the project root, require the module from the cache
entry (package name chosen by the 3.7.0 threshold), and add the support
plugin when it is absent from the project (an effect that may fail);
otherwise return the current handle unchanged.  The two environment
variable assignments of the source are not observed by any claim and
are not tracked. -/
def getCordova (fs : Fs) (st : GlobalState) (pluginOk : Bool) :
    Except String (GlobalState × Fs) × List Ev :=
  if st.cdv.isNone || !(st.loadedCordovaVersion == st.cordovaVersion) then
    let v := st.cordovaVersion.getD ""
    let pkg := if semverLt v "3.7.0" then CORDOVA else CORDOVA_LIB
    let st := { st with
      loadedCordovaVersion := st.cordovaVersion,
      cwd := st.projectPath,
      cdv := some (pathJoin (pathJoin (pathJoin st.cordovaCache v) "node_modules") pkg) }
    if fs.existsSync (pathJoin (pathJoin st.projectPath "plugins") SUPPORT_PLUGIN_ID) then
      (Except.ok (st, fs), [])
    else if pluginOk then
      (Except.ok (st, fs), [Ev.pluginAdd SUPPORT_PLUGIN_ID])
    else
      (Except.error "ToolchainError", [Ev.pluginAdd SUPPORT_PLUGIN_ID])
  else
    (Except.ok (st, fs), [])

/-! ## setupCordova (source lines 45 to 90) -/

/-- The version resolution step at the top of setupCordova: when no
version is set, take the cordova-cli value of taco.json when that file
exists, else the defaultCordovaVersion global (through resolveVersion).
The tacoVersion parameter stands for the cordova-cli field of
taco.json and is consulted only when that file exists. -/
def resolveVersionState (fs : Fs) (st : GlobalState) (tacoVersion : String) :
    GlobalState :=
  if st.cordovaVersion.isNone then
    { st with cordovaVersion := some (resolveVersion none
        (if fs.existsSync (pathJoin st.projectPath "taco.json")
         then some tacoVersion else none)
        st.defaultCordovaVersion) }
  else st

/-- Creation of the cache root directory when it does not exist yet. -/
def ensureCacheRoot (fs : Fs) (cacheDir : String) : Fs :=
  if !fs.existsSync cacheDir then fs.mkdirSync cacheDir else fs

/-- Model of setupCordova without an options argument: return the cached
handle when one is loaded for the resolved version; else resolve the
version, create the cache root if needed, and either install into a
fresh version directory (running the external install command, which may
fail) and load, or load directly from the existing version directory.
The execOk and pluginOk parameters give the outcomes of the external
install command and of the support plugin installation. -/
def setupCordova (fs : Fs) (st : GlobalState) (tacoVersion : String)
    (execOk pluginOk : Bool) : Except String (GlobalState × Fs) × List Ev :=
  if st.cdv.isSome && st.cordovaVersion == st.loadedCordovaVersion then
    (Except.ok (st, fs), [])
  else
    let st1 := resolveVersionState fs st tacoVersion
    let v := st1.cordovaVersion.getD ""
    let fs1 := ensureCacheRoot fs st1.cordovaCache
    let cordovaModulePath := pathResolve st1.cwd (pathJoin st1.cordovaCache v)
    if !fs1.existsSync cordovaModulePath then
      let fs2 := (fs1.mkdirSync cordovaModulePath).mkdirSync (pathJoin cordovaModulePath "node_modules")
      let cmd := installCmdString v
      if execOk then
        match getCordova fs2 st1 pluginOk with
        | (res, revs) => (res, Ev.execCmd cmd :: revs)
      else
        (Except.error "InstallationError", [Ev.execCmd cmd])
    else
      getCordova fs1 st1 pluginOk

/-- Model of setupCordova with an optional options argument: configure
runs first and its synchronous throw propagates before any event. -/
def setupCordovaWith (obj : Option ConfigureOptions) (fs : Fs) (st : GlobalState)
    (tacoVersion : String) (execOk pluginOk : Bool) :
    Except String (GlobalState × Fs) × List Ev :=
  match obj with
  | none => setupCordova fs st tacoVersion execOk pluginOk
  | some o =>
    match configure fs st o with
    | Except.error e => (Except.error e, [])
    | Except.ok st1 => setupCordova fs st1 tacoVersion execOk pluginOk

/-! ## getCallArgs (source lines 221 to 235) -/

/-- A platforms argument as accepted by the source: a single string or
an array of platform names. -/
inductive JSPlatforms
  | str (s : String)
  | list (l : List String)
  deriving Repr, DecidableEq

/-- An args argument as accepted by the source: undefined, an array of
options, or an object mapping platform names to option arrays. -/
inductive JSArgs
  | undef
  | arr (l : List String)
  | map (m : List (String × List String))
  deriving Repr, DecidableEq

/-- Model of getCallArgs: undefined args default to an empty array; a
platform string becomes a one-element list; with exactly one platform
the result carries either the array itself or the (possibly undefined)
entry of the per-platform object; with any other number of platforms
the function returns undefined (none). -/
def getCallArgs (platforms : JSPlatforms) (args : JSArgs) : Option CallArgs :=
  let ps := match platforms with
            | JSPlatforms.str s => [s]
            | JSPlatforms.list l => l
  if ps.length == 1 then
    match args with
    | JSArgs.undef => some { platforms := ps, options := some [] }
    | JSArgs.arr l => some { platforms := ps, options := some l }
    | JSArgs.map m => some { platforms := ps, options := List.lookup (ps.headD "") m }
  else none

/-! ## buildProject and addPlatformsToProject (source lines 93 to 125) -/

/-- The platform registrations queued by addPlatformsToProject: one
cordova platform add per requested platform whose marker directory under
platforms does not exist, in input order.  The existence checks happen
synchronously while the chain is built. -/
def addsOf (fs : Fs) (st : GlobalState) (ps : List String) : List Ev :=
  (ps.filter (fun p =>
    !fs.existsSync (pathJoin (pathJoin st.projectPath "platforms") p))).map Ev.addPlatform

/-- The build calls queued by buildProject: one cordova build per
requested platform, in input order, each carrying the call arguments
produced by getCallArgs for that single platform. -/
def expectedBuilds (ps : List String) (args : JSArgs) : List Ev :=
  ps.map (fun p => Ev.buildPlatform p (getCallArgs (JSPlatforms.str p) args))

/-- The promise chain queued by buildProject after setup: all platform
registrations, then all build calls. -/
def buildPlan (fs : Fs) (st : GlobalState) (ps : List String) (args : JSArgs) :
    List Ev :=
  addsOf fs st ps ++ expectedBuilds ps args

/-- Sequential execution of a queued promise chain: each step runs only
after every earlier step succeeded, and the first failing step ends the
run.  Returns the executed steps and whether the whole chain succeeded. -/
def runSeq (stepOk : Ev → Bool) : List Ev → List Ev × Bool
  | [] => ([], true)
  | e :: rest =>
    if stepOk e then
      let r := runSeq stepOk rest
      (e :: r.1, r.2)
    else ([e], false)

/-- Normalization of the platforms argument: a string becomes a
one-element array. -/
def normalizePlatforms : JSPlatforms → List String
  | JSPlatforms.str s => [s]
  | JSPlatforms.list l => l

/-- Model of buildProject: run setup, then the queued registration and
build chain strictly sequentially; a setup failure propagates before any
registration or build event. -/
def buildProject (platforms : JSPlatforms) (args : JSArgs) (fs : Fs)
    (st : GlobalState) (tacoVersion : String) (execOk pluginOk : Bool)
    (stepOk : Ev → Bool) : Except String GlobalState × List Ev :=
  let ps := normalizePlatforms platforms
  match setupCordova fs st tacoVersion execOk pluginOk with
  | (Except.error e, evs) => (Except.error e, evs)
  | (Except.ok (st1, fs1), evs) =>
    let r := runSeq stepOk (buildPlan fs1 st1 ps args)
    ((if r.2 then Except.ok st1 else Except.error "ToolchainError"), evs ++ r.1)

/-! ## createIpa and packageProject (source lines 128 to 193) -/

/-- Model of createIpa.  The first parameter mirrors the unused cordova
parameter of the source signature; the second is the args parameter the
body reads.  The versionFile parameter is the contents of the VERSION
marker file of the installed iOS platform when that file exists;
globResult is what the glob over the device build output directory
passes to its callback; execOk is the outcome of the packaging command.
When the marker is absent the version is assumed to be 4.0.0.  Below
3.9.0, a match count different from one only logs a warning and leaves
the deferred promise unsettled (pending); with exactly one match the
xcrun command is built from the match and its sibling ipa path, the
options produced by getCallArgs are appended, and the command runs.
At 3.9.0 and above the step resolves immediately with no event. -/
def createIpa (cordova : JSArgs) (args : JSArgs)
    (versionFile : Option String) (globResult : Except String (List String))
    (execOk : Bool) : Outcome × List Ev :=
  let iosPlatformVersion := match versionFile with
                            | some content => stripWs content
                            | none => "4.0.0"
  if semverLt iosPlatformVersion "3.9.0" then
    match globResult with
    | Except.error e => (Outcome.rejected e, [])
    | Except.ok ms =>
      if ms.length == 1 then
        let m := ms.headD ""
        let cmdString := "xcrun -sdk iphoneos PackageApplication \"" ++ m ++ "\" -o \"" ++
          pathJoin (dirname m) (basenameExt m ".app") ++ ".ipa\" "
        match getCallArgs (JSPlatforms.str "ios") args with
        | some ca =>
          match ca.options with
          | some opts =>
            let cmd := opts.foldl (fun s a => s ++ " " ++ a) cmdString
            if execOk then (Outcome.resolved, [Ev.execCmd cmd])
            else (Outcome.rejected "PackagingError", [Ev.execCmd cmd])
          | none => (Outcome.crashed "TypeError", [])
        | none => (Outcome.crashed "TypeError", [])
      else (Outcome.pending, [])
  else (Outcome.resolved, [])

/-- Model of packageProject: run setup, then chain one createIpa per
iOS platform in input order (non-iOS platforms only log); the source
passes its args value as the first positional argument of createIpa,
whose own args parameter is therefore undefined.  A step that is
rejected or left pending stops the chain. -/
def packageProject (platforms : JSPlatforms) (args : JSArgs) (fs : Fs)
    (st : GlobalState) (tacoVersion : String) (execOk pluginOk : Bool)
    (versionFile : Option String) (globResult : Except String (List String))
    (ipaExecOk : Bool) : Outcome × List Ev :=
  match setupCordova fs st tacoVersion execOk pluginOk with
  | (Except.error e, evs) => (Outcome.rejected e, evs)
  | (Except.ok (_st1, _fs1), evs) =>
    let ps := normalizePlatforms platforms
    ps.foldl (fun acc p =>
      match acc.1 with
      | Outcome.resolved =>
        if p == "ios" then
          let r := createIpa args JSArgs.undef versionFile globResult ipaExecOk
          (r.1, acc.2 ++ r.2)
        else acc
      | _ => acc) (Outcome.resolved, evs)

/-! ## Concrete sample states used by closed theorems and witnesses -/

/-- A base file system predicate on which no path exists. -/
def sampleBase : String → Bool := fun _ => false

/-- A file system with no existing paths and nothing created yet. -/
def sampleFs : Fs := { base := sampleBase, created := [] }

/-- A state whose handle is already loaded for version 5.1.1, so that
setup is a pure cache hit. -/
def sampleHitState : GlobalState :=
  { cordovaCache := "/cache", defaultCordovaVersion := "5.1.1",
    projectPath := "/app", cordovaVersion := some "5.1.1",
    loadedCordovaVersion := some "5.1.1",
    cdv := some "/cache/5.1.1/node_modules/cordova-lib", cwd := "/app" }

/-- A fresh state with a pinned version and no loaded handle. -/
def sampleFreshState : GlobalState :=
  { cordovaCache := "/cache", defaultCordovaVersion := "5.1.1",
    projectPath := "/app", cordovaVersion := some "5.1.1",
    loadedCordovaVersion := none, cdv := none, cwd := "/app" }

/-- The file system produced by running setup once from sampleFs and
sampleFreshState: the cache root, the version directory and its module
container have been created. -/
def sampleLoadedFs : Fs :=
  { base := sampleBase,
    created := ["/cache/5.1.1/node_modules", "/cache/5.1.1", "/cache"] }

/-! ## Claim theorems -/

/-- C1: the claim says the install command on a cache miss is an npm
install of cordova at the version for v below 3.7.0 and of cordova-lib
at the version for v at least 3.7.0.  The source instead builds the
command with a conditional whose condition is the concatenation of
"npm install " with a stringified boolean, a nonempty and hence truthy
string, so the executed command is the bare string "cordova" for every
version: the version threshold never selects the package and no npm
install is ever issued. -/
theorem installCmd_ignores_version :
    (∀ v, installCmdString v = "cordova") ∧
    installCmdString "3.6.3" ≠ "npm install cordova@3.6.3" ∧
    installCmdString "5.1.1" ≠ "npm install cordova-lib@5.1.1" := by
  refine ⟨fun v => ?_, by decide, by decide⟩
  unfold installCmdString
  cases h : semverLt v "3.7.0" <;> rfl

/-- C2: the claim says createIpa resolves successfully with no packaging
command when the installed iOS platform version is below 3.9.0 and the
glob yields zero or at least two matches.  The source only logs a
warning in that branch and never settles the deferred promise, so the
returned promise is left pending forever (no packaging command runs,
but the promise neither resolves nor rejects). -/
theorem createIpa_ambiguous_leaves_pending :
    createIpa JSArgs.undef JSArgs.undef (some "3.8.0") (Except.ok []) true
      = (Outcome.pending, []) ∧
    createIpa JSArgs.undef JSArgs.undef (some "3.8.0")
      (Except.ok ["/app/platforms/ios/build/device/A.app",
                  "/app/platforms/ios/build/device/B.app"]) true
      = (Outcome.pending, []) := ⟨rfl, rfl⟩

/-- C3: the claim says the packaging command run by package names the
matched bundle as input, a sibling ipa path as output, and appends every
extra iOS option from the args given to package.  The input and output
naming holds, but packageProject invokes createIpa with its args value
as the first positional argument, while the createIpa signature is
createIpa(cordova, args); the args parameter read by the body is
therefore undefined, getCallArgs turns it into an empty option list, and
the supplied iOS options are never appended (first conjunct: the
executed command carries no option).  The second conjunct shows that the
same options would be appended had they reached the args parameter of
createIpa. -/
theorem packageProject_drops_ios_options :
    packageProject (JSPlatforms.str "ios") (JSArgs.map [("ios", ["--sign", "dev"])])
      sampleFs sampleHitState "t" true true (some "3.8.0")
      (Except.ok ["/app/platforms/ios/build/device/Demo.app"]) true
      = (Outcome.resolved,
         [Ev.execCmd "xcrun -sdk iphoneos PackageApplication \"/app/platforms/ios/build/device/Demo.app\" -o \"/app/platforms/ios/build/device/Demo.ipa\" "]) ∧
    createIpa JSArgs.undef (JSArgs.map [("ios", ["--sign", "dev"])]) (some "3.8.0")
      (Except.ok ["/app/platforms/ios/build/device/Demo.app"]) true
      = (Outcome.resolved,
         [Ev.execCmd "xcrun -sdk iphoneos PackageApplication \"/app/platforms/ios/build/device/Demo.app\" -o \"/app/platforms/ios/build/device/Demo.ipa\"  --sign dev"]) :=
  ⟨rfl, rfl⟩

/-- C4: version resolution picks the first available source in the
fixed order: a version set via configure wins over the taco.json value,
which wins over the CORDOVA_DEFAULT_VERSION environment variable, which
wins over the built-in default 5.1.1; each source is used exactly when
all earlier ones are absent. -/
theorem resolveVersion_precedence :
    (∀ v t d, resolveVersion (some v) t d = v) ∧
    (∀ v d, resolveVersion none (some v) d = v) ∧
    (∀ e, resolveVersion none none (defaultCordovaVersionOf (some e)) = e) ∧
    resolveVersion none none (defaultCordovaVersionOf none) = "5.1.1" :=
  ⟨fun _ _ _ => rfl, fun _ _ => rfl, fun _ => rfl, rfl⟩

/-- C8: when the iOS VERSION marker file is absent, createIpa behaves
exactly as if the installed platform version were 4.0.0; and whenever
the detected or assumed version is at least 3.9.0 (not below it under
semver ordering) the step resolves immediately with no external
packaging command. -/
theorem createIpa_version_gate (c a : JSArgs) (g : Except String (List String))
    (e : Bool) (content : String)
    (h : semverLt (stripWs content) "3.9.0" = false) :
    createIpa c a none g e = createIpa c a (some "4.0.0") g e ∧
    createIpa c a (some content) g e = (Outcome.resolved, []) := by
  constructor
  · rfl
  · simp [createIpa, h]

/-- Witness for C8 at a concrete whitespace-padded version file. -/
theorem createIpa_version_gate_witness :
    createIpa JSArgs.undef JSArgs.undef none (Except.ok []) true
      = createIpa JSArgs.undef JSArgs.undef (some "4.0.0") (Except.ok []) true ∧
    createIpa JSArgs.undef JSArgs.undef (some " 4.1.0\n") (Except.ok []) true
      = (Outcome.resolved, []) :=
  createIpa_version_gate JSArgs.undef JSArgs.undef (Except.ok []) true " 4.1.0\n" (by decide)

/-- C10: when build is called for a single platform p with args given as
a per-platform object with no entry for p, getCallArgs returns a bundle
whose options field is undefined (none) rather than an empty list, and
the build call queued for p carries exactly that bundle; for a platform
list whose length is not one, getCallArgs returns no bundle at all. -/
theorem getCallArgs_undefined_options (p : String) (m : List (String × List String))
    (l : List String) (args : JSArgs) (fs : Fs) (st : GlobalState)
    (hm : List.lookup p m = none) (hl : l.length ≠ 1) :
    getCallArgs (JSPlatforms.str p) (JSArgs.map m)
      = some { platforms := [p], options := none } ∧
    getCallArgs (JSPlatforms.list l) args = none ∧
    (buildPlan fs st [p] (JSArgs.map m)).filter isBuild
      = [Ev.buildPlatform p (some { platforms := [p], options := none })] := by
  have h1 : getCallArgs (JSPlatforms.str p) (JSArgs.map m)
      = some { platforms := [p], options := none } := by
    simp [getCallArgs, hm]
  refine ⟨h1, ?_, ?_⟩
  · simp [getCallArgs, hl]
  · simp [buildPlan, addsOf, expectedBuilds, List.filter_append, h1]
    by_cases hfs : fs.existsSync (pathJoin (pathJoin st.projectPath "platforms") p) <;>
      simp [hfs, isBuild]

/-- Witness for C10 at a concrete platform and argument object. -/
theorem getCallArgs_undefined_options_witness :
    getCallArgs (JSPlatforms.str "ios") (JSArgs.map [("android", ["--release"])])
      = some { platforms := ["ios"], options := none } ∧
    getCallArgs (JSPlatforms.list ["android", "ios"]) JSArgs.undef = none ∧
    (buildPlan sampleFs sampleHitState ["ios"] (JSArgs.map [("android", ["--release"])])).filter isBuild
      = [Ev.buildPlatform "ios" (some { platforms := ["ios"], options := none })] :=
  getCallArgs_undefined_options "ios" [("android", ["--release"])] ["android", "ios"]
    JSArgs.undef sampleFs sampleHitState (by decide) (by decide)

/-- A file system on which every path exists. -/
def sampleFsAll : Fs := { base := fun _ => true, created := [] }

/-- The state produced by configure from sampleHitState when the
relative project path sub is supplied. -/
def sampleResolvedState : GlobalState :=
  { sampleHitState with projectPath := "/app/sub" }

/-- C7: when the options given to configure carry a project path that
does not exist (after resolution against the working directory),
configure throws the configuration error synchronously, and setup called
with those options propagates the same error with no event at all, so
no install, load, build or package step can start. -/
theorem configure_nonexistent_path_throws (fs : Fs) (st : GlobalState)
    (obj : ConfigureOptions) (p taco : String) (execOk pluginOk : Bool)
    (hp : obj.projectPath = some p)
    (hne : fs.existsSync (pathResolve st.cwd p) = false) :
    configure fs st obj = Except.error (configErrMsg (pathResolve st.cwd p)) ∧
    setupCordovaWith (some obj) fs st taco execOk pluginOk
      = (Except.error (configErrMsg (pathResolve st.cwd p)), []) := by
  obtain ⟨oc, ov, op⟩ := obj
  dsimp only at hp
  subst hp
  have hc : configure fs st { cordovaCache := oc, cordovaVersion := ov, projectPath := some p }
      = Except.error (configErrMsg (pathResolve st.cwd p)) := by
    cases oc <;> cases ov <;> simp [configure, hne]
  exact ⟨hc, by simp [setupCordovaWith, hc]⟩

/-- Witness for C7 at a concrete absolute missing path. -/
theorem configure_nonexistent_path_throws_witness :
    configure sampleFs sampleHitState
        { cordovaCache := none, cordovaVersion := none, projectPath := some "/missing" }
      = Except.error (configErrMsg (pathResolve sampleHitState.cwd "/missing")) ∧
    setupCordovaWith
        (some { cordovaCache := none, cordovaVersion := none, projectPath := some "/missing" })
        sampleFs sampleHitState "t" true true
      = (Except.error (configErrMsg (pathResolve sampleHitState.cwd "/missing")), []) :=
  configure_nonexistent_path_throws sampleFs sampleHitState
    { cordovaCache := none, cordovaVersion := none, projectPath := some "/missing" }
    "/missing" "t" true true rfl (by decide)

/-- C9: configure validates the effective project path even when no
project path option is supplied (first conjunct: with any other options
and a stored nonexistent project path it throws), and a supplied project
path is resolved against the working directory before the existence
check (second conjunct: on success the stored path is the resolved one
and the existence check held of the resolved path). -/
theorem configure_always_validates (fs : Fs) (st : GlobalState) (obj : ConfigureOptions)
    (p : String) (st1 : GlobalState) :
    (obj.projectPath = none → fs.existsSync st.projectPath = false →
      configure fs st obj = Except.error (configErrMsg st.projectPath)) ∧
    (obj.projectPath = some p → configure fs st obj = Except.ok st1 →
      st1.projectPath = pathResolve st.cwd p ∧
      fs.existsSync (pathResolve st.cwd p) = true) := by
  obtain ⟨oc, ov, op⟩ := obj
  constructor
  · intro hop hne
    dsimp only at hop
    subst hop
    cases oc <;> cases ov <;> simp [configure, hne]
  · intro hop hok
    dsimp only at hop
    subst hop
    by_cases hex : fs.existsSync (pathResolve st.cwd p) = true
    · refine ⟨?_, hex⟩
      cases oc <;> cases ov <;>
        simp [configure, hex] at hok <;> simp [← hok]
    · have hex2 : fs.existsSync (pathResolve st.cwd p) = false := by
        simpa using hex
      cases oc <;> cases ov <;> simp [configure, hex2] at hok

/-- Witness for C9: a configure call with only a cache override still
throws on a missing stored project path, and a successful configure with
a relative path stores the resolved absolute path. -/
theorem configure_always_validates_witness :
    configure sampleFs sampleHitState
        { cordovaCache := some "/othercache", cordovaVersion := none, projectPath := none }
      = Except.error (configErrMsg sampleHitState.projectPath) ∧
    (sampleResolvedState.projectPath = pathResolve sampleHitState.cwd "sub" ∧
      sampleFsAll.existsSync (pathResolve sampleHitState.cwd "sub") = true) :=
  ⟨(configure_always_validates sampleFs sampleHitState
      { cordovaCache := some "/othercache", cordovaVersion := none, projectPath := none }
      "x" sampleHitState).1 rfl (by decide),
   (configure_always_validates sampleFsAll sampleHitState
      { cordovaCache := none, cordovaVersion := none, projectPath := some "sub" }
      "sub" sampleResolvedState).2 rfl rfl⟩

/-- Invariant of getCordova on success: the resulting state has a
loaded handle whose recorded version matches the resolved version, and
its events contain no child process execution. -/
theorem getCordova_ok_inv (fs : Fs) (st : GlobalState) (pluginOk : Bool)
    (st2 : GlobalState) (fs2 : Fs) (evs : List Ev)
    (h : getCordova fs st pluginOk = (Except.ok (st2, fs2), evs)) :
    (st2.cdv.isSome && st2.cordovaVersion == st2.loadedCordovaVersion) = true ∧
    countExec evs = 0 := by
  unfold getCordova at h
  dsimp only at h
  split at h
  · split at h
    · simp only [Prod.mk.injEq, Except.ok.injEq] at h
      obtain ⟨⟨hst, -⟩, hevs⟩ := h
      subst hst
      subst hevs
      exact ⟨by simp, rfl⟩
    · split at h
      · simp only [Prod.mk.injEq, Except.ok.injEq] at h
        obtain ⟨⟨hst, -⟩, hevs⟩ := h
        subst hst
        subst hevs
        exact ⟨by simp, rfl⟩
      · simp only [Prod.mk.injEq] at h
        exact absurd h.1 (by simp)
  · next hcond =>
    simp only [Prod.mk.injEq, Except.ok.injEq] at h
    obtain ⟨⟨hst, -⟩, hevs⟩ := h
    subst hst
    subst hevs
    refine ⟨?_, rfl⟩
    cases hcdv : st.cdv with
    | none => exact absurd (by simp [hcdv]) hcond
    | some c =>
      cases hbeq : st.loadedCordovaVersion == st.cordovaVersion with
      | false => exact absurd (by simp [hbeq]) hcond
      | true =>
        have he : st.loadedCordovaVersion = st.cordovaVersion := eq_of_beq hbeq
        simp [hcdv, ← he]

/-- A setup call whose state already holds a loaded handle for the
resolved version returns immediately with no event and no change. -/
theorem setupCordova_hit (fs : Fs) (st : GlobalState) (taco : String)
    (execOk pluginOk : Bool)
    (h : (st.cdv.isSome && st.cordovaVersion == st.loadedCordovaVersion) = true) :
    setupCordova fs st taco execOk pluginOk = (Except.ok (st, fs), []) := by
  unfold setupCordova
  rw [if_pos h]

/-- Invariant of setupCordova on success: at most one child process
execution happened, and the resulting state holds a loaded handle whose
recorded version matches the resolved version. -/
theorem setupCordova_ok_inv (fs : Fs) (st : GlobalState) (taco : String)
    (execOk pluginOk : Bool) (st2 : GlobalState) (fs2 : Fs) (evs : List Ev)
    (h : setupCordova fs st taco execOk pluginOk = (Except.ok (st2, fs2), evs)) :
    (st2.cdv.isSome && st2.cordovaVersion == st2.loadedCordovaVersion) = true ∧
    countExec evs ≤ 1 := by
  unfold setupCordova at h
  by_cases h0 : (st.cdv.isSome && st.cordovaVersion == st.loadedCordovaVersion) = true
  · rw [if_pos h0] at h
    simp only [Prod.mk.injEq, Except.ok.injEq] at h
    obtain ⟨⟨hst, -⟩, hevs⟩ := h
    subst hst
    subst hevs
    exact ⟨h0, by decide⟩
  · rw [if_neg h0] at h
    generalize resolveVersionState fs st taco = st1 at h
    dsimp only at h
    generalize ensureCacheRoot fs st1.cordovaCache = fs1 at h
    generalize st1.cordovaVersion.getD "" = v at h
    generalize pathResolve st1.cwd (pathJoin st1.cordovaCache v) = mp at h
    split at h
    · split at h
      · -- install path with successful exec
        generalize hX : getCordova ((fs1.mkdirSync mp).mkdirSync (pathJoin mp "node_modules")) st1 pluginOk = X at h
        obtain ⟨r1, r2⟩ := X
        simp only [Prod.mk.injEq] at h
        obtain ⟨h1, hevs⟩ := h
        subst h1
        obtain ⟨hinv, hcnt⟩ := getCordova_ok_inv _ _ _ _ _ _ hX
        refine ⟨hinv, ?_⟩
        rw [← hevs]
        have hstep : countExec (Ev.execCmd (installCmdString v) :: r2) = countExec r2 + 1 := by
          simp [countExec, List.filter_cons, isExecEv]
        rw [hstep, hcnt]
      · simp only [Prod.mk.injEq] at h
        exact absurd h.1 (by simp)
    · obtain ⟨hinv, hcnt⟩ := getCordova_ok_inv _ _ _ _ _ _ h
      exact ⟨hinv, by omega⟩

/-- C6: running setup twice with the same resolved version runs the
external install command at most once.  On any successful setup run at
most one child process execution happened, and a second setup call from
the resulting state is a pure cache hit: it returns the same handle with
no event at all, in particular with no process execution. -/
theorem setupCordova_second_call_cached (fs fs2 : Fs) (st st2 : GlobalState)
    (taco : String) (execOk pluginOk : Bool) (evs : List Ev)
    (h : setupCordova fs st taco execOk pluginOk = (Except.ok (st2, fs2), evs)) :
    countExec evs ≤ 1 ∧
    setupCordova fs2 st2 taco execOk pluginOk = (Except.ok (st2, fs2), []) := by
  obtain ⟨hinv, hcnt⟩ := setupCordova_ok_inv fs st taco execOk pluginOk st2 fs2 evs h
  exact ⟨hcnt, setupCordova_hit fs2 st2 taco execOk pluginOk hinv⟩

/-- Witness for C6: a fresh state with pinned version 5.1.1 and an
empty file system installs once (one exec event), and the second call
is a pure cache hit with no event. -/
theorem setupCordova_second_call_cached_witness :
    countExec [Ev.execCmd "cordova", Ev.pluginAdd "cordova-plugin-vs-taco-support"] ≤ 1 ∧
    setupCordova sampleLoadedFs sampleHitState "t" true true
      = (Except.ok (sampleHitState, sampleLoadedFs), []) :=
  setupCordova_second_call_cached sampleFs sampleLoadedFs sampleFreshState sampleHitState
    "t" true true [Ev.execCmd "cordova", Ev.pluginAdd "cordova-plugin-vs-taco-support"] rfl

/-! ## Sequencing lemmas for the build chain -/

/-- The executed steps of a run form an initial segment of the queued
chain. -/
theorem runSeq_init (f : Ev → Bool) (l : List Ev) :
    ∃ t, (runSeq f l).1 ++ t = l := by
  induction l with
  | nil => exact ⟨[], rfl⟩
  | cons e rest ih =>
    by_cases hf : f e = true
    · obtain ⟨t, ht⟩ := ih
      exact ⟨t, by simp [runSeq, hf, ht]⟩
    · exact ⟨rest, by simp [runSeq, hf]⟩

/-- A fully successful run executes the whole chain, and every executed
step succeeded. -/
theorem runSeq_all (f : Ev → Bool) (l : List Ev) (h : (runSeq f l).2 = true) :
    (runSeq f l).1 = l ∧ ∀ x ∈ (runSeq f l).1, f x = true := by
  induction l with
  | nil => exact ⟨rfl, by simp [runSeq]⟩
  | cons e rest ih =>
    by_cases hf : f e = true
    · have h2 : (runSeq f rest).2 = true := by simpa [runSeq, hf] using h
      obtain ⟨h3, h4⟩ := ih h2
      refine ⟨by simp [runSeq, hf, h3], ?_⟩
      intro x hx
      simp only [runSeq, hf, if_true, List.mem_cons] at hx
      rcases hx with rfl | hx
      · exact hf
      · exact h4 x hx
    · exfalso
      simp [runSeq, hf] at h

/-- A failed run executes a nonempty initial segment whose last step
failed while all earlier executed steps succeeded; nothing later runs. -/
theorem runSeq_fail (f : Ev → Bool) (l : List Ev) (h : (runSeq f l).2 = false) :
    ∃ pre e, (runSeq f l).1 = pre ++ [e] ∧ f e = false ∧
      ∀ x ∈ pre, f x = true := by
  induction l with
  | nil => simp [runSeq] at h
  | cons e rest ih =>
    by_cases hf : f e = true
    · have h2 : (runSeq f rest).2 = false := by simpa [runSeq, hf] using h
      obtain ⟨pre, e2, h3, h4, h5⟩ := ih h2
      refine ⟨e :: pre, e2, by simp [runSeq, hf, h3], h4, ?_⟩
      intro x hx
      rcases List.mem_cons.mp hx with rfl | hx
      · exact hf
      · exact h5 x hx
    · exact ⟨[], e, by simp [runSeq, hf], by simpa using hf, by simp⟩

/-- Every queued registration event is a platform registration and not
a build call. -/
theorem mem_addsOf (fs : Fs) (st : GlobalState) (ps : List String) :
    ∀ x ∈ addsOf fs st ps, isAdd x = true ∧ isBuild x = false := by
  intro x hx
  simp only [addsOf, List.mem_map, List.mem_filter] at hx
  obtain ⟨p, -, rfl⟩ := hx
  exact ⟨rfl, rfl⟩

/-- Every queued build event is a build call and not a registration. -/
theorem mem_expectedBuilds (ps : List String) (args : JSArgs) :
    ∀ x ∈ expectedBuilds ps args, isAdd x = false ∧ isBuild x = true := by
  intro x hx
  simp only [expectedBuilds, List.mem_map] at hx
  obtain ⟨p, -, rfl⟩ := hx
  exact ⟨rfl, rfl⟩

/-- An initial segment of a registrations-then-builds chain splits into
a registrations part followed by a builds part. -/
theorem isInit_split (A B tr t : List Ev) (h : tr ++ t = A ++ B)
    (hA : ∀ x ∈ A, isBuild x = false) (hB : ∀ x ∈ B, isAdd x = false) :
    ∃ A2 B2, tr = A2 ++ B2 ∧ (∀ x ∈ A2, isBuild x = false) ∧
      ∀ x ∈ B2, isAdd x = false := by
  rcases List.append_eq_append_iff.mp h with ⟨a2, ha1, -⟩ | ⟨c2, hc1, hc2⟩
  · exact ⟨tr, [], by simp,
      fun x hx => hA x (ha1 ▸ List.mem_append_left a2 hx), by simp⟩
  · exact ⟨A, c2, hc1, hA,
      fun x hx => hB x (hc2 ▸ List.mem_append_left t hx)⟩

/-- In a trace that is a registrations part followed by a builds part,
every registration index comes before every build index. -/
theorem split_lt (tr : List Ev)
    (hsplit : ∃ A2 B2, tr = A2 ++ B2 ∧ (∀ x ∈ A2, isBuild x = false) ∧
      ∀ x ∈ B2, isAdd x = false)
    (i j : Nat) (hi : i < tr.length) (hj : j < tr.length)
    (ha : isAdd (tr.get ⟨i, hi⟩) = true)
    (hb : isBuild (tr.get ⟨j, hj⟩) = true) : i < j := by
  obtain ⟨A2, B2, rfl, hA, hB⟩ := hsplit
  have hiA : i < A2.length := by
    by_contra hge
    push_neg at hge
    have hmem : (A2 ++ B2).get ⟨i, hi⟩ ∈ B2 := by
      rw [List.get_eq_getElem, List.getElem_append_right hge]
      exact List.getElem_mem _
    have hfalse := hB _ hmem
    rw [List.get_eq_getElem] at hfalse
    simp [hfalse] at ha
  have hjB : A2.length ≤ j := by
    by_contra hlt
    push_neg at hlt
    have hmem : (A2 ++ B2).get ⟨j, hj⟩ ∈ A2 := by
      rw [List.get_eq_getElem, List.getElem_append_left hlt]
      exact List.getElem_mem _
    have hfalse := hA _ hmem
    rw [List.get_eq_getElem] at hfalse
    simp [hfalse] at hb
  omega

/-- The queued chain keeps only the build events under the build
filter, in input order. -/
theorem buildPlan_filter (fs : Fs) (st : GlobalState) (ps : List String)
    (args : JSArgs) :
    (buildPlan fs st ps args).filter isBuild = expectedBuilds ps args := by
  show (addsOf fs st ps ++ expectedBuilds ps args).filter isBuild = _
  rw [List.filter_append]
  have h1 : (addsOf fs st ps).filter isBuild = [] :=
    List.filter_eq_nil_iff.mpr (fun x hx => by
      simp [(mem_addsOf fs st ps x hx).2])
  have h2 : (expectedBuilds ps args).filter isBuild = expectedBuilds ps args :=
    List.filter_eq_self.mpr (fun x hx => (mem_expectedBuilds ps args x hx).2)
  rw [h1, h2]
  rfl

/-- C5: for every platform list, the executed chain of buildProject is
an initial segment of the queued registrations-then-builds chain; every
executed registration event precedes every executed build event; the
executed build calls are an initial segment of the per-platform build
calls in input order; when every step succeeds the whole chain runs, the
build calls are exactly the per-platform calls in order and every step
succeeded before the next started; when a step fails the trace ends at
the first failing step and nothing later runs; and a setup failure
propagates with no registration or build event at all. -/
theorem buildProject_sequencing (fs : Fs) (st : GlobalState) (ps : List String)
    (args : JSArgs) (stepOk : Ev → Bool) (taco : String) (execOk pluginOk : Bool)
    (platforms : JSPlatforms) :
    (∃ t, (runSeq stepOk (buildPlan fs st ps args)).1 ++ t = buildPlan fs st ps args) ∧
    (∀ i j (hi : i < (runSeq stepOk (buildPlan fs st ps args)).1.length)
       (hj : j < (runSeq stepOk (buildPlan fs st ps args)).1.length),
       isAdd ((runSeq stepOk (buildPlan fs st ps args)).1.get ⟨i, hi⟩) = true →
       isBuild ((runSeq stepOk (buildPlan fs st ps args)).1.get ⟨j, hj⟩) = true →
       i < j) ∧
    (∃ t, (runSeq stepOk (buildPlan fs st ps args)).1.filter isBuild ++ t
        = expectedBuilds ps args) ∧
    ((runSeq stepOk (buildPlan fs st ps args)).2 = true →
      (runSeq stepOk (buildPlan fs st ps args)).1 = buildPlan fs st ps args ∧
      (runSeq stepOk (buildPlan fs st ps args)).1.filter isBuild
        = expectedBuilds ps args ∧
      ∀ x ∈ (runSeq stepOk (buildPlan fs st ps args)).1, stepOk x = true) ∧
    ((runSeq stepOk (buildPlan fs st ps args)).2 = false →
      ∃ pre e, (runSeq stepOk (buildPlan fs st ps args)).1 = pre ++ [e] ∧
        stepOk e = false ∧ ∀ x ∈ pre, stepOk x = true) ∧
    (∀ e evs, setupCordova fs st taco execOk pluginOk = (Except.error e, evs) →
      buildProject platforms args fs st taco execOk pluginOk stepOk
        = (Except.error e, evs)) := by
  obtain ⟨t, ht⟩ := runSeq_init stepOk (buildPlan fs st ps args)
  have hAfacts := fun x hx => (mem_addsOf fs st ps x hx).2
  have hBfacts := fun x hx => (mem_expectedBuilds ps args x hx).1
  refine ⟨⟨t, ht⟩, ?_, ?_, ?_, runSeq_fail stepOk _, ?_⟩
  · intro i j hi hj ha hb
    exact split_lt _ (isInit_split (addsOf fs st ps) (expectedBuilds ps args)
      _ t ht hAfacts hBfacts) i j hi hj ha hb
  · refine ⟨t.filter isBuild, ?_⟩
    calc (runSeq stepOk (buildPlan fs st ps args)).1.filter isBuild ++ t.filter isBuild
        = ((runSeq stepOk (buildPlan fs st ps args)).1 ++ t).filter isBuild :=
          (List.filter_append _ _).symm
      _ = (buildPlan fs st ps args).filter isBuild := by rw [ht]
      _ = expectedBuilds ps args := buildPlan_filter fs st ps args
  · intro h2
    obtain ⟨he, hall⟩ := runSeq_all stepOk _ h2
    exact ⟨he, by rw [he]; exact buildPlan_filter fs st ps args, hall⟩
  · intro e evs hsetup
    simp [buildProject, hsetup]

/-- The all-steps-succeed environment used by the C5 witness. -/
def wStep : Ev → Bool := fun _ => true

/-- Witness for C5 at two platforms with every step succeeding: the
executed build calls are exactly the per-platform calls in input order,
and the registration at index zero precedes the build at index two. -/
theorem buildProject_sequencing_witness :
    (runSeq wStep (buildPlan sampleFs sampleFreshState ["android", "ios"]
        (JSArgs.arr ["--release"]))).1.filter isBuild
      = expectedBuilds ["android", "ios"] (JSArgs.arr ["--release"]) ∧
    (0 : Nat) < 2 :=
  ⟨((buildProject_sequencing sampleFs sampleFreshState ["android", "ios"]
      (JSArgs.arr ["--release"]) wStep "t" true true
      (JSPlatforms.list ["android", "ios"])).2.2.2.1 rfl).2.1,
   (buildProject_sequencing sampleFs sampleFreshState ["android", "ios"]
      (JSArgs.arr ["--release"]) wStep "t" true true
      (JSPlatforms.list ["android", "ios"])).2.1 0 2 (by decide) (by decide)
      (by decide) (by decide)⟩

end TacoTeamBuild
